import Mathlib

/-!
Shallow embedding of the Job Store (`JobTracker` in `src/lib/job-tracker.ts`,
provided as `src/unnamed/part_000`) of the hyperbrowser-job-automation
repository, together with theorems settling the frozen claims about it.

Modelling conventions:
- JavaScript strings are Lean `String`s; the JS primitives `toLowerCase`,
  `trim` and `includes` are embedded as executable functions on `List Char`
  (`lowerChar`, `jsTrim`, `hasSubstr`).
- Optional TS fields (`jobUrl?`, `location?`, `notes?`, ...) are `Option`s.
  Fields that the on-disk JSON may omit even though the TS interface declares
  them required (`location`, `jobUrl`, `salaryRange`) are `Option`s as well,
  because the code guards them with optional chaining (`job.jobUrl?.`).
- `new Date().toISOString()` is an explicit `now : String` parameter.
- The durable file is a `FileState`; `fs.readFile` + `JSON.parse` outcomes are
  its constructors (absent / unreadable / malformed / array / object / other).
  Writes are modelled on their success path.
- The class fields `jobs` / `initialized` are `TrackerState`; a `World` pairs
  the tracker with the file. Async methods become `World → result × World`.
-/

namespace JobAuto

/-- `JobStatus` enum from `src/types/index.ts` (values "found", "reviewed",
"applied"). -/
inductive JobStatus where
  | found
  | reviewed
  | applied
deriving DecidableEq

/-- One entry of a record's `notes` sequence: `{ timestamp, note }`. -/
structure NoteEntry where
  timestamp : String
  note : String
deriving DecidableEq

/-- A job record (`interface Job` in `src/types/index.ts`).  `additionalInfo`
is an open key/value map (`Record<string, unknown>`), embedded as an
association list of strings; no operation of the store reads or writes it. -/
structure Job where
  company : String
  jobTitle : String
  location : Option String
  jobUrl : Option String
  salaryRange : Option String
  status : JobStatus
  lastUpdated : String
  jobBoard : Option String
  additionalInfo : Option (List (String × String))
  notes : Option (List NoteEntry)
deriving DecidableEq

/-- The input of `addJob`: `Omit<Job, "status" | "lastUpdated">`. -/
structure JobData where
  company : String
  jobTitle : String
  location : Option String
  jobUrl : Option String
  salaryRange : Option String
  jobBoard : Option String
  additionalInfo : Option (List (String × String))
  notes : Option (List NoteEntry)
deriving DecidableEq

/-- `{ ...jobData, status: JobStatus.FOUND, lastUpdated: new Date().toISOString() }` -/
def mkJob (d : JobData) (now : String) : Job :=
  { company := d.company
    jobTitle := d.jobTitle
    location := d.location
    jobUrl := d.jobUrl
    salaryRange := d.salaryRange
    status := JobStatus.found
    lastUpdated := now
    jobBoard := d.jobBoard
    additionalInfo := d.additionalInfo
    notes := d.notes }

/-! JS string primitives. -/

/-- JS `String.prototype.toLowerCase` on one character (ASCII case mapping,
which covers the case-insensitive comparisons the store performs). -/
def lowerChar (c : Char) : Char :=
  if 65 ≤ c.toNat ∧ c.toNat ≤ 90 then Char.ofNat (c.toNat + 32) else c

/-- Whitespace for JS `String.prototype.trim`. -/
def isWs (c : Char) : Bool :=
  c == ' ' || c == '\t' || c == '\n' || c == '\r'

/-- JS `String.prototype.trim`: strip leading and trailing whitespace. -/
def jsTrim (l : List Char) : List Char :=
  ((l.dropWhile isWs).reverse.dropWhile isWs).reverse

/-- `s.toLowerCase()` as a character list. -/
def lowerStr (s : String) : List Char :=
  s.data.map lowerChar

/-- `s.toLowerCase().trim()` as a character list. -/
def lowTrim (s : String) : List Char :=
  jsTrim (lowerStr s)

/-- Does `pat` match at the head of the list? (helper for `includes`). -/
def leadMatch : List Char → List Char → Bool
  | [], _ => true
  | _ :: _, [] => false
  | p :: ps, c :: cs => p == c && leadMatch ps cs

/-- JS `s.includes(pat)` on character lists: `pat` occurs contiguously in `s`. -/
def hasSubstr (pat : List Char) : List Char → Bool
  | [] => pat.isEmpty
  | c :: cs => leadMatch pat (c :: cs) || hasSubstr pat cs

/-! The durable record file. -/

/-- Observable states of the backing JSON file, as `loadData` distinguishes
them: missing (`ENOENT`), unreadable for another reason, unparsable JSON,
a JSON array of records, a legacy JSON object (values in enumeration order),
or some other JSON value (`null`, number, string, boolean). -/
inductive FileState where
  | absent
  | unreadable
  | malformed
  | jsonArray (jobs : List Job)
  | jsonObject (entries : List (String × Job))
  | jsonOther
deriving DecidableEq

/-- `saveDataInternal(jobList)`: rewrite the file as a JSON array (success
path; directory creation and write errors are outside the claims). -/
def saveDataInternal (jobList : List Job) : FileState :=
  FileState.jsonArray jobList

/-- `loadData()`: read and parse the file, migrate the legacy object shape
(persisting immediately), and fall back to `[]` on absence, read errors or
malformed JSON.  Returns the loaded collection and the resulting file state. -/
def loadData : FileState → List Job × FileState
  | FileState.absent => ([], FileState.absent)
  | FileState.unreadable => ([], FileState.unreadable)
  | FileState.malformed => ([], FileState.malformed)
  | FileState.jsonArray js => (js, FileState.jsonArray js)
  | FileState.jsonObject entries =>
      let jobList := entries.map Prod.snd
      (jobList, saveDataInternal jobList)
  | FileState.jsonOther => ([], FileState.jsonOther)

/-- The in-memory fields of the `JobTracker` class: `jobs` and the
`initialized` flag (`inited` here). -/
structure TrackerState where
  jobs : List Job
  inited : Bool
deriving DecidableEq

/-- A tracker together with the durable file it reads and writes. -/
structure World where
  tracker : TrackerState
  file : FileState
deriving DecidableEq

/-- A fresh store (`new JobTracker()`) over a given file. -/
def freshWorld (f : FileState) : World :=
  { tracker := { jobs := [], inited := false }, file := f }

/-- `initialize()`: no-op when already initialized, otherwise load the
collection from the file and mark the store initialized. -/
def initTracker (w : World) : World :=
  if w.tracker.inited then w
  else
    let p := loadData w.file
    { tracker := { jobs := p.1, inited := true }, file := p.2 }

/-- JS `Array.prototype.findIndex`, with `-1` rendered as `none`: the index of
the first element satisfying `p`. -/
def findIdxA (p : Job → Bool) : List Job → Option Nat
  | [] => none
  | j :: js => if p j then some 0 else (findIdxA p js).map Nat.succ

/-- The URL predicate of `checkDuplicate`:
`job.jobUrl?.toLowerCase().trim() === jobUrl.toLowerCase().trim()`. -/
def urlMatches (u : String) (job : Job) : Bool :=
  match job.jobUrl with
  | some ju => lowTrim ju == lowTrim u
  | none => false

/-- The fallback predicate of `checkDuplicate`:
`job.company.toLowerCase() === company.toLowerCase() &&
 job.jobTitle.toLowerCase() === jobTitle.toLowerCase()`. -/
def titleMatches (company jobTitle : String) (job : Job) : Bool :=
  lowerStr job.company == lowerStr company &&
    lowerStr job.jobTitle == lowerStr jobTitle

/-- `checkDuplicate(company, jobTitle, jobUrl?)`: URL match first (only when
the candidate URL is truthy, i.e. present and non-empty), then the
company+title fallback. -/
def checkDuplicate (jobs : List Job) (company jobTitle : String)
    (jobUrl : Option String) : Option Nat :=
  let urlIndex : Option Nat :=
    match jobUrl with
    | some u => if u = "" then none else findIdxA (urlMatches u) jobs
    | none => none
  match urlIndex with
  | some i => some i
  | none => findIdxA (titleMatches company jobTitle) jobs

/-- `addJob(jobData)`: initialize, dedup-check, and either return the existing
index unchanged or append a new FOUND record, save, and return its index. -/
def addJob (now : String) (d : JobData) (w : World) : Nat × World :=
  let w := initTracker w
  match checkDuplicate w.tracker.jobs d.company d.jobTitle d.jobUrl with
  | some i => (i, w)
  | none =>
      let js := w.tracker.jobs ++ [mkJob d now]
      (js.length - 1,
        { tracker := { jobs := js, inited := true },
          file := saveDataInternal js })

/-- In-place update of the record at index `n` (JS `this.jobs[i].f = v`). -/
def setAt (l : List Job) (n : Nat) (f : Job → Job) : List Job :=
  match l, n with
  | [], _ => []
  | j :: js, 0 => f j :: js
  | j :: js, Nat.succ m => j :: setAt js m f

/-- `updateJobStatus(jobIndex, status, note?)`: out-of-range indices fail
without mutation; otherwise set `status`, stamp `lastUpdated`, save.  The
optional `note` is only logged, never written into the record. -/
def updateJobStatus (now : String) (jobIndex : Int) (status : JobStatus)
    (note : Option String) (w : World) : Bool × World :=
  let w := initTracker w
  if jobIndex < 0 ∨ (w.tracker.jobs.length : Int) ≤ jobIndex then (false, w)
  else
    let js := setAt w.tracker.jobs jobIndex.toNat
      (fun j => { j with status := status, lastUpdated := now })
    (true,
      { tracker := { jobs := js, inited := w.tracker.inited },
        file := saveDataInternal js })

/-- `addNote(jobIndex, note)`: out-of-range indices fail without mutation;
otherwise append `{timestamp: now, note}` to the record's `notes` (creating
the sequence if absent), stamp `lastUpdated`, save. -/
def addNote (now : String) (jobIndex : Int) (note : String) (w : World) :
    Bool × World :=
  let w := initTracker w
  if jobIndex < 0 ∨ (w.tracker.jobs.length : Int) ≤ jobIndex then (false, w)
  else
    let js := setAt w.tracker.jobs jobIndex.toNat
      (fun j =>
        { j with
          notes := some (j.notes.getD [] ++ [⟨now, note⟩])
          lastUpdated := now })
    (true,
      { tracker := { jobs := js, inited := w.tracker.inited },
        file := saveDataInternal js })

/-! Query operations.  In the source these read `this.jobs` directly and do
not call `initialize`; they are pure functions of the in-memory collection. -/

/-- `getJob(index)`: `this.jobs[index] ?? null`. -/
def getJob (jobs : List Job) (index : Int) : Option Job :=
  if index < 0 then none else jobs[index.toNat]?

/-- `getAllJobs()`: a copy of the collection in insertion order. -/
def getAllJobs (jobs : List Job) : List Job :=
  jobs

/-- `getJobsByStatus(status)`: exact status equality filter. -/
def getJobsByStatus (jobs : List Job) (status : JobStatus) : List Job :=
  jobs.filter (fun j => j.status = status)

/-- `getJobsByCompany(company)`: case-insensitive substring match on
`company`. -/
def getJobsByCompany (jobs : List Job) (company : String) : List Job :=
  jobs.filter (fun j => hasSubstr (lowerStr company) (lowerStr j.company))

/-- `searchJobs(query)`: case-insensitive substring match across `jobTitle`,
`company` and (when present) `location`. -/
def searchJobs (jobs : List Job) (query : String) : List Job :=
  let ql := lowerStr query
  jobs.filter (fun j =>
    hasSubstr ql (lowerStr j.jobTitle) ||
    hasSubstr ql (lowerStr j.company) ||
    (match j.location with
     | some loc => hasSubstr ql (lowerStr loc)
     | none => false))

/-! Spec-side definitions, written from the spec's words (for comparison with
the code-side `checkDuplicate`), and sample data for concrete instances. -/

/-- Spec-side URL predicate, following the claim's words: the record has a
NON-EMPTY `jobUrl` equal to the candidate's case-insensitively after
trimming. -/
def specUrlMatches (u : String) (job : Job) : Bool :=
  match job.jobUrl with
  | some ju => !(ju == "") && (lowTrim ju == lowTrim u)
  | none => false

/-- Spec-side dedup rule exactly as the claim states it: URL first (both
URLs non-empty, equal case-insensitively after trimming), company+title
fallback only when no URL is supplied or no URL match exists. -/
def specCheckDuplicate (jobs : List Job) (company jobTitle : String)
    (jobUrl : Option String) : Option Nat :=
  let urlIndex : Option Nat :=
    match jobUrl with
    | some u => if u ≠ "" then findIdxA (specUrlMatches u) jobs else none
    | none => none
  match urlIndex with
  | some i => some i
  | none => findIdxA (titleMatches company jobTitle) jobs

/-- Spec-side URL predicate as amended: the record's `jobUrl` must merely be
present (possibly empty); the candidate's must still be non-empty; the
comparison is case-insensitive after trimming. -/
def specUrlMatchesAmended (u : String) (job : Job) : Bool :=
  match job.jobUrl with
  | some ju => lowTrim ju == lowTrim u
  | none => false

/-- The amended dedup rule: same as `specCheckDuplicate` except that a
record with a present-but-empty `jobUrl` can be a URL match. -/
def specCheckDuplicateAmended (jobs : List Job) (company jobTitle : String)
    (jobUrl : Option String) : Option Nat :=
  let urlIndex : Option Nat :=
    match jobUrl with
    | some u => if u ≠ "" then findIdxA (specUrlMatchesAmended u) jobs else none
    | none => none
  match urlIndex with
  | some i => some i
  | none => findIdxA (titleMatches company jobTitle) jobs

/-- The fields of a record that no store operation ever mutates: everything
except `status`, `lastUpdated` and `notes`.  Identity-by-index means these
survive every operation at every pre-existing index. -/
def stablePart (j : Job) :
    String × String × Option String × Option String × Option String ×
      Option String × Option (List (String × String)) :=
  (j.company, j.jobTitle, j.location, j.jobUrl, j.salaryRange, j.jobBoard,
    j.additionalInfo)

/-- A sample record whose `jobUrl` is present but empty (reachable: the TS
`Job` interface declares `jobUrl: string`, so `""` is a legal stored value). -/
def emptyUrlJob : Job :=
  { company := "Acme"
    jobTitle := "Dev"
    location := none
    jobUrl := some ""
    salaryRange := none
    status := JobStatus.found
    lastUpdated := "2024-01-01T00:00:00.000Z"
    jobBoard := none
    additionalInfo := none
    notes := none }

/-- A sample record for concrete store states. -/
def sampleJob : Job :=
  { company := "Acme"
    jobTitle := "Dev"
    location := some "Remote"
    jobUrl := some "https://x.com/a"
    salaryRange := none
    status := JobStatus.found
    lastUpdated := "2024-01-01T00:00:00.000Z"
    jobBoard := some "linkedin"
    additionalInfo := none
    notes := none }

/-- Candidate data matching `sampleJob`'s company and title, with no URL. -/
def sampleData : JobData :=
  { company := "Acme"
    jobTitle := "Dev"
    location := none
    jobUrl := none
    salaryRange := none
    jobBoard := none
    additionalInfo := none
    notes := none }

/-- Candidate data matching nothing in the sample stores. -/
def freshData : JobData :=
  { company := "Globex"
    jobTitle := "Boss"
    location := some "NYC"
    jobUrl := some "https://g.com/b"
    salaryRange := some "100k"
    jobBoard := none
    additionalInfo := none
    notes := none }

/-- An initialized store holding one record, consistent with its file. -/
def wOne : World :=
  { tracker := { jobs := [sampleJob], inited := true }
    file := FileState.jsonArray [sampleJob] }

/-! Helper lemmas about the embedded primitives, shared by the claim
theorems. -/

theorem hasSubstr_nil (l : List Char) : hasSubstr [] l = true := by
  cases l <;> simp [hasSubstr, leadMatch, List.isEmpty]

theorem findIdxA_eq_none_iff (p : Job → Bool) (l : List Job) :
    findIdxA p l = none ↔ ∀ j ∈ l, p j = false := by
  induction l with
  | nil => simp [findIdxA]
  | cons x xs ih =>
      cases hp : p x with
      | true => simp [findIdxA, hp]
      | false => simp [findIdxA, hp, Option.map_eq_none', ih]

theorem findIdxA_append_right (p : Job → Bool) (l : List Job) (a : Job)
    (h : findIdxA p l = none) :
    findIdxA p (l ++ [a]) = if p a then some l.length else none := by
  induction l with
  | nil => simp [findIdxA]
  | cons x xs ih =>
      cases hp : p x with
      | true => simp [findIdxA, hp] at h
      | false =>
          simp [findIdxA, hp, Option.map_eq_none'] at h
          simp [findIdxA, hp, ih h]

theorem setAt_length (l : List Job) (n : Nat) (f : Job → Job) :
    (setAt l n f).length = l.length := by
  induction l generalizing n with
  | nil => simp [setAt]
  | cons x xs ih =>
      cases n with
      | zero => simp [setAt]
      | succ m => simp [setAt, ih]

theorem getElem?_setAt_self (l : List Job) (n : Nat) (f : Job → Job) :
    (setAt l n f)[n]? = (l[n]?).map f := by
  induction l generalizing n with
  | nil => simp [setAt]
  | cons x xs ih =>
      cases n with
      | zero => simp [setAt]
      | succ m => simp [setAt, ih]

theorem getElem?_setAt_ne (l : List Job) (n k : Nat) (f : Job → Job)
    (h : k ≠ n) : (setAt l n f)[k]? = l[k]? := by
  induction l generalizing n k with
  | nil => simp [setAt]
  | cons x xs ih =>
      cases n with
      | zero =>
          cases k with
          | zero => exact absurd rfl h
          | succ j => simp [setAt]
      | succ m =>
          cases k with
          | zero => simp [setAt]
          | succ j => simpa [setAt] using ih m j (fun hh => h (by omega))

theorem initTracker_inited (w : World) :
    (initTracker w).tracker.inited = true := by
  by_cases h : w.tracker.inited <;> simp [initTracker, h]

theorem initTracker_of_inited (w : World) (h : w.tracker.inited = true) :
    initTracker w = w := by
  simp [initTracker, h]

theorem initTracker_idem (w : World) :
    initTracker (initTracker w) = initTracker w :=
  initTracker_of_inited _ (initTracker_inited w)

theorem getElem?_setAt_stablePart (l : List Job) (n : Nat) (f : Job → Job)
    (hf : ∀ j, stablePart (f j) = stablePart j) (k : Nat) :
    ((setAt l n f)[k]?).map stablePart = (l[k]?).map stablePart := by
  by_cases hk : k = n
  · subst hk
    rw [getElem?_setAt_self]
    cases hj : l[k]? <;> simp [hj, hf]
  · rw [getElem?_setAt_ne _ _ _ _ hk]

/-! Claim theorems. -/

/-- C1 (counterexample): the claim's dedup rule requires the RECORD's
`jobUrl` to be non-empty, but the code only requires the candidate's to be.
A stored record with a present-but-empty URL matches a whitespace-only
candidate URL (both trim to the empty string): `checkDuplicate` returns
index 0 where the claim's rule, with neither a record-side URL match nor a
company+title match, reports no match. -/
theorem checkDuplicate_spec_counterexample :
    checkDuplicate [emptyUrlJob] "Globex" "Boss" (some " ") = some 0 ∧
    specCheckDuplicate [emptyUrlJob] "Globex" "Boss" (some " ") = none ∧
    emptyUrlJob.jobUrl = some "" ∧ (" " : String) ≠ "" := by
  refine ⟨by decide, by decide, rfl, by decide⟩

/-- C1 (amended): `checkDuplicate` returns exactly the index prescribed by
the amended dedup rule — first, when the candidate supplies a non-empty URL,
the first index whose record's `jobUrl` is PRESENT (possibly empty) and
equal to the candidate's case-insensitively after trimming; only when no URL
is supplied (or it is empty) or no URL match exists, the first index whose
record's company and jobTitle both equal the candidate's case-insensitively
(exact equality, not substring); otherwise no match.  As a pure function of
the collection it performs no mutation and no persistence. -/
theorem checkDuplicate_amended_spec (jobs : List Job) (company jobTitle : String)
    (jobUrl : Option String) :
    checkDuplicate jobs company jobTitle jobUrl =
      specCheckDuplicateAmended jobs company jobTitle jobUrl := by
  have hpred : ∀ u : String, specUrlMatchesAmended u = urlMatches u := by
    intro u
    funext j
    unfold specUrlMatchesAmended urlMatches
    rfl
  cases jobUrl with
  | none => rfl
  | some u =>
      by_cases h : u = "" <;>
        simp [checkDuplicate, specCheckDuplicateAmended, h, hpred]

/-- C10: with the empty query every record matches (every string contains
the empty substring), so `searchJobs` and `getJobsByCompany` return the whole
collection in insertion order; both are total functions of the collection
(no record with its required string fields can make them fail). -/
theorem searchJobs_empty_query (jobs : List Job) :
    searchJobs jobs "" = jobs ∧ getJobsByCompany jobs "" = jobs := by
  have h0 : lowerStr "" = [] := rfl
  constructor
  · unfold searchJobs
    apply List.filter_eq_self.mpr
    intro j hj
    simp [h0, hasSubstr_nil]
  · unfold getJobsByCompany
    apply List.filter_eq_self.mpr
    intro j hj
    simp [h0, hasSubstr_nil]

/-- C4: initialization never raises — it is a total function of the world.
A missing file yields the empty collection (and is not an error); a
malformed or unreadable file falls back to the empty collection with the
file untouched; once state is held in memory (the `initialized` flag is
set), further initialization calls are no-ops. -/
theorem initTracker_never_raises (w : World) :
    (w.tracker.inited = false → w.file = FileState.absent →
      initTracker w =
        { tracker := { jobs := [], inited := true }
          file := FileState.absent }) ∧
    (w.tracker.inited = false →
      (w.file = FileState.malformed ∨ w.file = FileState.unreadable) →
      (initTracker w).tracker.jobs = [] ∧ (initTracker w).file = w.file) ∧
    (w.tracker.inited = true → initTracker w = w) ∧
    initTracker (initTracker w) = initTracker w := by
  refine ⟨?_, ?_, initTracker_of_inited w, initTracker_idem w⟩
  · intro h1 h2
    simp [initTracker, h1, h2, loadData]
  · intro h1 h2
    rcases h2 with h2 | h2 <;> simp [initTracker, h1, h2, loadData]

/-- C4 witness: a fresh store over a malformed file initializes to the empty
collection without touching the file, and initializing again is a no-op. -/
theorem initTracker_never_raises_witness :
    (freshWorld FileState.malformed).tracker.inited = false ∧
    (initTracker (freshWorld FileState.malformed)).tracker.jobs = [] ∧
    (initTracker (freshWorld FileState.malformed)).file =
      FileState.malformed ∧
    initTracker (initTracker (freshWorld FileState.malformed)) =
      initTracker (freshWorld FileState.malformed) := by
  have h := initTracker_never_raises (freshWorld FileState.malformed)
  have h2 := h.2.1 rfl (Or.inl rfl)
  exact ⟨rfl, h2.1, h2.2, h.2.2.2⟩

/-- C5: loading a legacy JSON-object file converts it to the list of its
values in enumeration order, immediately persists that list back as a JSON
array, and uses it as the in-memory collection; the collection's length is
the number of entries. -/
theorem loadData_migrates_legacy (w : World) (entries : List (String × Job))
    (h1 : w.tracker.inited = false) (h2 : w.file = FileState.jsonObject entries) :
    (initTracker w).tracker.jobs = entries.map Prod.snd ∧
    (initTracker w).file = FileState.jsonArray (entries.map Prod.snd) ∧
    (initTracker w).tracker.jobs.length = entries.length := by
  simp [initTracker, h1, h2, loadData, saveDataInternal]

/-- C5 witness: a two-entry legacy object yields an in-memory collection of
length 2 and a file rewritten as the corresponding JSON array. -/
theorem loadData_migrates_legacy_witness :
    (freshWorld (FileState.jsonObject [("0", sampleJob), ("1", emptyUrlJob)])).tracker.inited = false ∧
    (initTracker (freshWorld
        (FileState.jsonObject [("0", sampleJob), ("1", emptyUrlJob)]))).tracker.jobs =
      [sampleJob, emptyUrlJob] ∧
    (initTracker (freshWorld
        (FileState.jsonObject [("0", sampleJob), ("1", emptyUrlJob)]))).file =
      FileState.jsonArray [sampleJob, emptyUrlJob] ∧
    (initTracker (freshWorld
        (FileState.jsonObject [("0", sampleJob), ("1", emptyUrlJob)]))).tracker.jobs.length = 2 := by
  have h := loadData_migrates_legacy
    (freshWorld (FileState.jsonObject [("0", sampleJob), ("1", emptyUrlJob)]))
    [("0", sampleJob), ("1", emptyUrlJob)] rfl rfl
  exact ⟨rfl, h.1, h.2.1, h.2.2⟩

/-- C6: on any index outside `[0, length)` — in particular `-1` and
`length` — `updateJobStatus` and `addNote` return `false` without throwing
and leave the world (collection and file alike) entirely unchanged. -/
theorem updateJobStatus_out_of_range (w : World) (now : String) (idx : Int)
    (status : JobStatus) (note : Option String) (ntext : String)
    (hw : w.tracker.inited = true)
    (hidx : idx < 0 ∨ (w.tracker.jobs.length : Int) ≤ idx) :
    updateJobStatus now idx status note w = (false, w) ∧
    addNote now idx ntext w = (false, w) := by
  have hinit := initTracker_of_inited w hw
  unfold updateJobStatus addNote
  rw [hinit, if_pos hidx, if_pos hidx]
  exact ⟨rfl, rfl⟩

/-- C6 witness: on a one-record store, index `-1` and index `1` (= length)
both fail without mutating anything. -/
theorem updateJobStatus_out_of_range_witness :
    updateJobStatus "t" (-1) JobStatus.applied none wOne = (false, wOne) ∧
    addNote "t" (-1) "called" wOne = (false, wOne) ∧
    updateJobStatus "t" 1 JobStatus.applied none wOne = (false, wOne) ∧
    addNote "t" 1 "called" wOne = (false, wOne) := by
  have h1 := updateJobStatus_out_of_range wOne "t" (-1) JobStatus.applied
    none "called" rfl (Or.inl (by decide))
  have h2 := updateJobStatus_out_of_range wOne "t" 1 JobStatus.applied
    none "called" rfl (Or.inr (by decide))
  exact ⟨h1.1, h1.2, h2.1, h2.2⟩

/-- C3: when the candidate duplicates no current record, `addJob` appends
exactly one new record carrying the candidate's fields with status FOUND and
`lastUpdated = now`, persists the whole collection to the file, and returns
the new record's index — the pre-append length, i.e. the post-append length
minus one; every pre-existing record is unchanged. -/
theorem addJob_appends (w : World) (now : String) (d : JobData)
    (hw : w.tracker.inited = true)
    (hdup : checkDuplicate w.tracker.jobs d.company d.jobTitle d.jobUrl = none) :
    addJob now d w =
      (w.tracker.jobs.length,
        { tracker := { jobs := w.tracker.jobs ++ [mkJob d now], inited := true }
          file := FileState.jsonArray (w.tracker.jobs ++ [mkJob d now]) }) ∧
    (mkJob d now).status = JobStatus.found ∧
    (mkJob d now).lastUpdated = now ∧
    stablePart (mkJob d now) =
      (d.company, d.jobTitle, d.location, d.jobUrl, d.salaryRange, d.jobBoard,
        d.additionalInfo) ∧
    (mkJob d now).notes = d.notes ∧
    w.tracker.jobs.length = (w.tracker.jobs ++ [mkJob d now]).length - 1 ∧
    (∀ k, k < w.tracker.jobs.length →
      (w.tracker.jobs ++ [mkJob d now])[k]? = w.tracker.jobs[k]?) := by
  have hinit := initTracker_of_inited w hw
  refine ⟨?_, rfl, rfl, rfl, rfl, by simp, fun k hk => List.getElem?_append_left hk⟩
  simp [addJob, hinit, hdup, saveDataInternal]

/-- C3 witness: adding a non-duplicate candidate to a one-record store
appends it at index 1 and rewrites the file. -/
theorem addJob_appends_witness :
    addJob "t9" freshData wOne =
      (wOne.tracker.jobs.length,
        { tracker := { jobs := wOne.tracker.jobs ++ [mkJob freshData "t9"], inited := true }
          file := FileState.jsonArray (wOne.tracker.jobs ++ [mkJob freshData "t9"]) }) :=
  (addJob_appends wOne "t9" freshData rfl (by decide)).1

/-- C7: a successful `updateJobStatus` returns `true` and changes only the
`status` and `lastUpdated` fields of the record at the given index; every
other record is untouched, and the record's `notes` sequence is exactly what
it was — the optional note argument is never appended to it. -/
theorem updateJobStatus_frame (w : World) (now : String) (idx : Int)
    (status : JobStatus) (note : Option String)
    (hw : w.tracker.inited = true)
    (h0 : 0 ≤ idx) (hlen : idx < (w.tracker.jobs.length : Int)) :
    (updateJobStatus now idx status note w).1 = true ∧
    (updateJobStatus now idx status note w).2.tracker.jobs.length =
      w.tracker.jobs.length ∧
    (updateJobStatus now idx status note w).2.tracker.jobs[idx.toNat]? =
      (w.tracker.jobs[idx.toNat]?).map
        (fun j => { j with status := status, lastUpdated := now }) ∧
    (∀ k, k ≠ idx.toNat →
      (updateJobStatus now idx status note w).2.tracker.jobs[k]? =
        w.tracker.jobs[k]?) ∧
    ((updateJobStatus now idx status note w).2.tracker.jobs[idx.toNat]?).map
        Job.notes =
      (w.tracker.jobs[idx.toNat]?).map Job.notes := by
  have hinit := initTracker_of_inited w hw
  have hcond : ¬(idx < 0 ∨ (w.tracker.jobs.length : Int) ≤ idx) := by omega
  simp only [updateJobStatus, hinit, if_neg hcond]
  refine ⟨by trivial, setAt_length _ _ _, getElem?_setAt_self _ _ _,
    fun k hk => getElem?_setAt_ne _ _ _ _ hk, ?_⟩
  rw [getElem?_setAt_self]
  cases hj : w.tracker.jobs[idx.toNat]? <;> simp [hj]

/-- C7 witness: updating the only record of a one-record store succeeds and
leaves its `notes` exactly as before even though a note was supplied. -/
theorem updateJobStatus_frame_witness :
    (updateJobStatus "t2" 0 JobStatus.applied (some "memo") wOne).1 = true ∧
    ((updateJobStatus "t2" 0 JobStatus.applied (some "memo") wOne).2.tracker.jobs[(0 : Int).toNat]?).map
        Job.notes =
      (wOne.tracker.jobs[(0 : Int).toNat]?).map Job.notes := by
  have h := updateJobStatus_frame wOne "t2" 0 JobStatus.applied (some "memo")
    rfl (by decide) (by decide)
  exact ⟨h.1, h.2.2.2.2⟩

/-- C2 (counterexample): "for any store state, two identical adds leave
exactly one such record" fails when the collection already holds duplicates
(reachable: an array file is loaded verbatim).  With a file containing the
same record twice, both adds return index 0 and TWO records matching the
candidate's company+title remain, not one. -/
theorem addJob_twice_counterexample :
    (addJob "t1" sampleData
        (freshWorld (FileState.jsonArray [sampleJob, sampleJob]))).1 = 0 ∧
    (addJob "t2" sampleData
        (addJob "t1" sampleData
          (freshWorld (FileState.jsonArray [sampleJob, sampleJob]))).2).1 = 0 ∧
    ((addJob "t2" sampleData
        (addJob "t1" sampleData
          (freshWorld (FileState.jsonArray [sampleJob, sampleJob]))).2).2.tracker.jobs.filter
        (titleMatches sampleData.company sampleData.jobTitle)).length = 2 := by
  decide

/-- C2 (amended): when duplicate detection finds an existing record, `addJob`
returns that record's index with no write and no mutation.  Consequently two
`addJob` calls with identical company and jobTitle (and no URL) return the
same index, the second call changes nothing, and the number of matching
records does not increase — in particular, when the store initially holds no
matching record, exactly one exists after both calls. -/
theorem addJob_idempotent (w : World) (now1 now2 : String) (d : JobData)
    (hw : w.tracker.inited = true) (hu : d.jobUrl = none) :
    (∀ i, checkDuplicate w.tracker.jobs d.company d.jobTitle d.jobUrl = some i →
      addJob now1 d w = (i, w)) ∧
    (addJob now2 d (addJob now1 d w).2).1 = (addJob now1 d w).1 ∧
    (addJob now2 d (addJob now1 d w).2).2 = (addJob now1 d w).2 ∧
    ((w.tracker.jobs.filter (titleMatches d.company d.jobTitle)).length = 0 →
      ((addJob now2 d (addJob now1 d w).2).2.tracker.jobs.filter
          (titleMatches d.company d.jobTitle)).length = 1) := by
  have hinit := initTracker_of_inited w hw
  have hdup_first : ∀ i,
      checkDuplicate w.tracker.jobs d.company d.jobTitle d.jobUrl = some i →
      addJob now1 d w = (i, w) := by
    intro i hi
    simp [addJob, hinit, hi]
  refine ⟨hdup_first, ?_⟩
  cases hdup : checkDuplicate w.tracker.jobs d.company d.jobTitle d.jobUrl with
  | some i =>
      have h1 : addJob now1 d w = (i, w) := hdup_first i hdup
      have h2 : addJob now2 d w = (i, w) := by simp [addJob, hinit, hdup]
      rw [h1]
      refine ⟨by rw [h2], by rw [h2], ?_⟩
      intro h0
      exfalso
      rw [hu] at hdup
      simp only [checkDuplicate] at hdup
      have hnone : findIdxA (titleMatches d.company d.jobTitle) w.tracker.jobs
          = none := by
        rw [findIdxA_eq_none_iff]
        intro j hj
        have hmem := (List.filter_eq_nil_iff.mp (List.length_eq_zero.mp h0)) j hj
        simpa using hmem
      rw [hnone] at hdup
      exact Option.noConfusion hdup
  | none =>
      have h1 : addJob now1 d w =
          (w.tracker.jobs.length,
            { tracker := { jobs := w.tracker.jobs ++ [mkJob d now1], inited := true }
              file := FileState.jsonArray (w.tracker.jobs ++ [mkJob d now1]) }) := by
        simp [addJob, hinit, hdup, saveDataInternal]
      have hmatch : titleMatches d.company d.jobTitle (mkJob d now1) = true := by
        simp [titleMatches, mkJob]
      have hnone : findIdxA (titleMatches d.company d.jobTitle) w.tracker.jobs
          = none := by
        rw [hu] at hdup
        simpa only [checkDuplicate] using hdup
      have hdup2 : checkDuplicate (w.tracker.jobs ++ [mkJob d now1]) d.company
          d.jobTitle d.jobUrl = some w.tracker.jobs.length := by
        rw [hu]
        simp [checkDuplicate, findIdxA_append_right _ _ _ hnone, hmatch]
      have hw' : ((addJob now1 d w).2).tracker.inited = true := by rw [h1]
      have hinit2 := initTracker_of_inited _ hw'
      have hjobs' : ((addJob now1 d w).2).tracker.jobs =
          w.tracker.jobs ++ [mkJob d now1] := by rw [h1]
      have h2 : addJob now2 d (addJob now1 d w).2 =
          (w.tracker.jobs.length, (addJob now1 d w).2) := by
        rw [addJob, hinit2, hjobs', hdup2]
      refine ⟨by rw [h2, h1], by rw [h2], ?_⟩
      intro h0
      have hfil : w.tracker.jobs.filter (titleMatches d.company d.jobTitle)
          = [] := List.length_eq_zero.mp h0
      rw [h2, hjobs']
      simp [List.filter_append, hfil, hmatch]

/-- C2 witness: on a one-record initialized store, a duplicate add (same
company+title, no URL) twice returns index 0 both times and leaves exactly
the one matching record. -/
theorem addJob_idempotent_witness :
    wOne.tracker.inited = true ∧ sampleData.jobUrl = none ∧
    (addJob "u2" sampleData (addJob "u1" sampleData wOne).2).1 =
      (addJob "u1" sampleData wOne).1 ∧
    (addJob "u2" sampleData (addJob "u1" sampleData wOne).2).2 =
      (addJob "u1" sampleData wOne).2 := by
  have h := addJob_idempotent wOne "u1" "u2" sampleData rfl rfl
  exact ⟨rfl, rfl, h.2.1, h.2.2.1⟩

/-- C8: identity-by-index.  With an initialized store, `addJob` leaves every
pre-existing record untouched at its index and grows the length by one
exactly on a non-duplicate add (otherwise by zero), while `updateJobStatus`
and `addNote` keep the length and preserve every record's immutable fields
(`stablePart`: everything except status, lastUpdated, notes) at every index;
no operation reorders or removes records.  Queries are pure functions of the
collection and change nothing. -/
theorem identity_by_index (w : World) (now : String) (d : JobData) (idx : Int)
    (status : JobStatus) (note : Option String) (ntext : String)
    (hw : w.tracker.inited = true) :
    ((addJob now d w).2.tracker.jobs.length = w.tracker.jobs.length ∨
      (addJob now d w).2.tracker.jobs.length = w.tracker.jobs.length + 1) ∧
    (∀ k, k < w.tracker.jobs.length →
      (addJob now d w).2.tracker.jobs[k]? = w.tracker.jobs[k]?) ∧
    (checkDuplicate w.tracker.jobs d.company d.jobTitle d.jobUrl = none →
      (addJob now d w).2.tracker.jobs.length = w.tracker.jobs.length + 1) ∧
    (updateJobStatus now idx status note w).2.tracker.jobs.length =
      w.tracker.jobs.length ∧
    (∀ k, k < w.tracker.jobs.length →
      ((updateJobStatus now idx status note w).2.tracker.jobs[k]?).map stablePart =
        (w.tracker.jobs[k]?).map stablePart) ∧
    (addNote now idx ntext w).2.tracker.jobs.length = w.tracker.jobs.length ∧
    (∀ k, k < w.tracker.jobs.length →
      ((addNote now idx ntext w).2.tracker.jobs[k]?).map stablePart =
        (w.tracker.jobs[k]?).map stablePart) := by
  have hinit := initTracker_of_inited w hw
  have hupd : (updateJobStatus now idx status note w).2.tracker.jobs.length =
      w.tracker.jobs.length ∧
      ∀ k : Nat, ((updateJobStatus now idx status note w).2.tracker.jobs[k]?).map stablePart =
        (w.tracker.jobs[k]?).map stablePart := by
    have hf : ∀ j : Job,
        stablePart { j with status := status, lastUpdated := now } =
          stablePart j := fun j => rfl
    by_cases hcond : idx < 0 ∨ (w.tracker.jobs.length : Int) ≤ idx
    · simp [updateJobStatus, hinit, if_pos hcond]
    · simp only [updateJobStatus, hinit, if_neg hcond]
      exact ⟨setAt_length _ _ _,
        fun k => getElem?_setAt_stablePart _ _ _ hf k⟩
  have hnote : (addNote now idx ntext w).2.tracker.jobs.length =
      w.tracker.jobs.length ∧
      ∀ k : Nat, ((addNote now idx ntext w).2.tracker.jobs[k]?).map stablePart =
        (w.tracker.jobs[k]?).map stablePart := by
    have hf : ∀ j : Job,
        stablePart
            { j with
              notes := some (j.notes.getD [] ++ [{ timestamp := now, note := ntext }])
              lastUpdated := now } =
          stablePart j := fun j => rfl
    by_cases hcond : idx < 0 ∨ (w.tracker.jobs.length : Int) ≤ idx
    · simp [addNote, hinit, if_pos hcond]
    · simp only [addNote, hinit, if_neg hcond]
      exact ⟨setAt_length _ _ _,
        fun k => getElem?_setAt_stablePart _ _ _ hf k⟩
  cases hdup : checkDuplicate w.tracker.jobs d.company d.jobTitle d.jobUrl with
  | some i =>
      have ha : (addJob now d w).2 = w := by simp [addJob, hinit, hdup]
      refine ⟨Or.inl (by rw [ha]), fun k _ => by rw [ha], ?_,
        hupd.1, fun k _ => hupd.2 k, hnote.1, fun k _ => hnote.2 k⟩
      intro h
      exact Option.noConfusion h
  | none =>
      have ha : (addJob now d w).2.tracker.jobs =
          w.tracker.jobs ++ [mkJob d now] := by
        simp [addJob, hinit, hdup, saveDataInternal]
      refine ⟨Or.inr (by simp [ha]),
        fun k hk => by rw [ha]; exact List.getElem?_append_left hk,
        fun _ => by simp [ha],
        hupd.1, fun k _ => hupd.2 k, hnote.1, fun k _ => hnote.2 k⟩

/-- C8 witness: on a one-record store a non-duplicate add grows the length
to 2 keeping record 0, and an in-range status update keeps length 1 and the
record's immutable fields. -/
theorem identity_by_index_witness :
    ((addJob "v1" freshData wOne).2.tracker.jobs.length = wOne.tracker.jobs.length ∨
      (addJob "v1" freshData wOne).2.tracker.jobs.length =
        wOne.tracker.jobs.length + 1) ∧
    (updateJobStatus "v1" 0 JobStatus.reviewed none wOne).2.tracker.jobs.length =
      wOne.tracker.jobs.length := by
  have h := identity_by_index wOne "v1" freshData 0 JobStatus.reviewed none "n" rfl
  exact ⟨h.1, h.2.2.2.1⟩

/-- C9 (counterexample): the read-only queries do not trigger the lazy load —
`getAllJobs` invoked first on a fresh store over a one-record file returns
the empty collection, not the collection that initialization would load. -/
theorem query_skips_init_counterexample :
    getAllJobs (freshWorld (FileState.jsonArray [sampleJob])).tracker.jobs = [] ∧
    (initTracker (freshWorld (FileState.jsonArray [sampleJob]))).tracker.jobs =
      [sampleJob] ∧
    getAllJobs (freshWorld (FileState.jsonArray [sampleJob])).tracker.jobs ≠
      (initTracker (freshWorld (FileState.jsonArray [sampleJob]))).tracker.jobs := by
  decide

/-- C9 (amended): lazy initialization is triggered by the MUTATING
operations only: `addJob`, `updateJobStatus` and `addNote` each behave as if
the store were initialized first, and initialization is idempotent, so after
the first such call the in-memory state is authoritative; the read-only
queries never trigger the load and observe only the in-memory collection,
which on a fresh store is empty whatever the file holds. -/
theorem lazy_init_on_mutators (w : World) (now : String) (d : JobData)
    (idx : Int) (status : JobStatus) (note : Option String) (ntext : String)
    (f : FileState) :
    addJob now d w = addJob now d (initTracker w) ∧
    updateJobStatus now idx status note w =
      updateJobStatus now idx status note (initTracker w) ∧
    addNote now idx ntext w = addNote now idx ntext (initTracker w) ∧
    (initTracker w).tracker.inited = true ∧
    initTracker (initTracker w) = initTracker w ∧
    getAllJobs (freshWorld f).tracker.jobs = [] ∧
    getJob (freshWorld f).tracker.jobs 0 = none := by
  refine ⟨?_, ?_, ?_, initTracker_inited w, initTracker_idem w, rfl, ?_⟩
  · simp only [addJob, initTracker_idem]
  · simp only [updateJobStatus, initTracker_idem]
  · simp only [addNote, initTracker_idem]
  · simp [getJob, freshWorld]

end JobAuto
